import Mathlib

/-!
Verification development for a subtitle-translation program.

The program reads .srt files, splits them into blocks, translates the
text lines of each block through an external oracle process in a
structured JSON batch mode with a retry loop and a per-line fallback,
and reassembles the blocks.  All definitions below are shallow
embeddings of the corresponding Python functions.
-/

/-- Python whitespace test, as used by the str strip method. -/
def pyIsSpace (c : Char) : Bool :=
  c == ' ' || c == '\t' || c == '\n' || c == '\r' || c == '\x0b' || c == '\x0c' ||
  c == '\x1c' || c == '\x1d' || c == '\x1e' || c == '\x1f' || c == '\x85' ||
  c == '\xa0' || c == ' ' || c == ' ' || c == ' ' || c == ' ' ||
  c == ' ' || c == ' ' || c == ' ' || c == ' ' || c == ' ' ||
  c == ' ' || c == ' ' || c == ' ' || c == ' ' || c == ' ' ||
  c == ' ' || c == ' ' || c == '　'

/-- Python str strip with no argument, at the character-list level. -/
def pyStrip (cs : List Char) : List Char :=
  ((cs.dropWhile pyIsSpace).reverse.dropWhile pyIsSpace).reverse

/-- Python str strip with no argument, at the string level. -/
def pyStripStr (s : String) : String :=
  ⟨pyStrip s.data⟩

/-- Characters at which Python str splitlines breaks a line. -/
def isLineBreakChar (c : Char) : Bool :=
  c == '\n' || c == '\r' || c == '\x0b' || c == '\x0c' || c == '\x1c' ||
  c == '\x1d' || c == '\x1e' || c == '\x85' || c == ' ' || c == ' '

/-- Python str splitlines at the character-list level: break lines at line
break characters, treating a carriage return followed by a newline as a
single break, and dropping a trailing empty line. -/
def splitlinesL : List Char → List (List Char)
  | [] => []
  | c :: cs =>
    if c = '\r' then
      match cs with
      | [] => [[]]
      | d :: cs2 => if d = '\n' then [] :: splitlinesL cs2 else [] :: splitlinesL (d :: cs2)
    else if isLineBreakChar c then
      [] :: splitlinesL cs
    else
      match splitlinesL cs with
      | [] => [[c]]
      | l :: ls => (c :: l) :: ls

/-- Python str splitlines at the string level. -/
def splitlines (s : String) : List String :=
  (splitlinesL s.data).map String.mk

/-- Loop of parse_srt_blocks: accumulate non-blank lines into the current
block, emit the block at each blank line, emit a trailing block at the end. -/
def parseSrtAux (current : List String) : List String → List (List String)
  | [] => if current.isEmpty then [] else [current]
  | line :: rest =>
    if (pyStrip line.data).isEmpty then
      if current.isEmpty then parseSrtAux [] rest
      else current :: parseSrtAux [] rest
    else
      parseSrtAux (current ++ [line]) rest

/-- Embedding of parse_srt_blocks: split the raw text into lines and group
maximal runs of non-blank lines into blocks. -/
def parse_srt_blocks (s : String) : List (List String) :=
  parseSrtAux [] (splitlines s)

/-- Characters written for the translated text lines of one block, one
newline after each line. -/
def writeTransLines : List String → List Char
  | [] => []
  | t :: ts => t.data ++ '\n' :: writeTransLines ts

/-- Characters written for one block by translate_file: the first line of
the block, the second line or the empty string if absent, the translated
text lines, and a final blank separator line. -/
def serializeBlock (b : List String) (tr : List String) : List Char :=
  (b.headD "").data ++ '\n' :: (b[1]?.getD "").data ++ '\n' ::
    (writeTransLines tr ++ ['\n'])

/-- Text lines of a block: everything after the index and time lines. -/
def blockTextLines (b : List String) : List String := b.drop 2

/-- Characters written for one batch of blocks: each block consumes as many
entries from the flat translated list as it has text lines. -/
def serializeBatch : List (List String) → List String → List Char
  | [], _ => []
  | b :: bs, tr =>
    serializeBlock b (tr.take (blockTextLines b).length) ++
      serializeBatch bs (tr.drop (blockTextLines b).length)

/-- Batch size constant of the program. -/
def BATCH_SIZE : Nat := 50

/-- Grouping of the block list into consecutive batches of BATCH_SIZE. -/
def toBatches (l : List (List String)) : List (List (List String)) :=
  if l.isEmpty then [] else l.take BATCH_SIZE :: toBatches (l.drop BATCH_SIZE)
termination_by l.length
decreasing_by
  simp only [List.isEmpty_eq_true] at *
  have : l.length ≠ 0 := by
    intro h0
    exact (by assumption : ¬ l = []) (List.length_eq_zero.mp h0)
  simp [List.length_drop, BATCH_SIZE]
  omega

/-- Flattened text lines of a batch, as built by translate_file. -/
def batchTextLines (batch : List (List String)) : List String :=
  (batch.map blockTextLines).flatten

/-- Output of translate_file when every translated line equals the original
line: the batched serialization with the identity translation. -/
def reassembleWithIdentity (blocks : List (List String)) : String :=
  ⟨((toBatches blocks).map
      (fun batch => serializeBatch batch (batchTextLines batch))).flatten⟩

/-- Join a list of chunks with a separator between consecutive chunks. -/
def joinSep (sep : List α) : List (List α) → List α
  | [] => []
  | [x] => x
  | x :: y :: rest => x ++ sep ++ joinSep sep (y :: rest)

/-- Characters of one block rendered as text: its lines joined by newlines. -/
def blockChars (b : List String) : List Char :=
  joinSep ['\n'] (b.map String.data)

/-- A subtitle file rendered from a list of blocks: blocks joined by one
blank line, with no trailing newline. -/
def srtText (blocks : List (List String)) : String :=
  ⟨joinSep ['\n', '\n'] (blocks.map blockChars)⟩

/-- JSON values as produced by the Python json module.  Integral numbers are
kept as integers; numbers with a fractional or exponent part become a float
and are kept here as their literal token, since float formatting is not
reached by any translated path. -/
inductive Json where
  | null
  | bool (b : Bool)
  | num (n : Int)
  | fnum (lit : String)
  | str (s : String)
  | arr (xs : List Json)
  | obj (kvs : List (String × Json))

/-- Whitespace skipped by the Python json scanner. -/
def skipWs : List Char → List Char :=
  List.dropWhile (fun c => c == ' ' || c == '\t' || c == '\n' || c == '\r')

/-- Value of a hexadecimal digit. -/
def hexVal (c : Char) : Option Nat :=
  if '0' ≤ c ∧ c ≤ '9' then some (c.toNat - '0'.toNat)
  else if 'a' ≤ c ∧ c ≤ 'f' then some (c.toNat - 'a'.toNat + 10)
  else if 'A' ≤ c ∧ c ≤ 'F' then some (c.toNat - 'A'.toNat + 10)
  else none

/-- Body of a JSON string after the opening quote: the decoded characters
and the remaining input after the closing quote. -/
def parseStringChars : List Char → Option (List Char × List Char)
  | [] => none
  | '"' :: rest => some ([], rest)
  | '\\' :: 'u' :: h1 :: h2 :: h3 :: h4 :: rest =>
    match hexVal h1, hexVal h2, hexVal h3, hexVal h4 with
    | some a, some b, some c, some d =>
      let n := ((a * 16 + b) * 16 + c) * 16 + d
      if n < 0xd800 ∨ (0xdfff < n ∧ n < 0x110000) then
        match parseStringChars rest with
        | some (cs, r) => some (Char.ofNat n :: cs, r)
        | none => none
      else none
    | _, _, _, _ => none
  | '\\' :: e :: rest =>
    match (match e with
      | '"' => some '"'
      | '\\' => some '\\'
      | '/' => some '/'
      | 'b' => some '\x08'
      | 'f' => some '\x0c'
      | 'n' => some '\n'
      | 'r' => some '\r'
      | 't' => some '\t'
      | _ => none) with
    | some c =>
      match parseStringChars rest with
      | some (cs, r) => some (c :: cs, r)
      | none => none
    | none => none
  | c :: rest =>
    if c.toNat < 0x20 then none
    else
      match parseStringChars rest with
      | some (cs, r) => some (c :: cs, r)
      | none => none

/-- Numeric value of a list of decimal digits. -/
def digitsToNat (ds : List Char) : Nat :=
  ds.foldl (fun acc c => acc * 10 + (c.toNat - '0'.toNat)) 0

/-- JSON number parse: optional minus, integer digits with no leading zero,
optional fraction and exponent.  A purely integral literal becomes an
integer, otherwise the literal is kept as a float token. -/
def parseNumber (cs : List Char) : Option (Json × List Char) :=
  let neg := cs.headD ' ' == '-'
  let cs1 := if neg then cs.tail else cs
  let ds := cs1.takeWhile Char.isDigit
  let rest1 := cs1.dropWhile Char.isDigit
  if ds.isEmpty then none
  else if 1 < ds.length && ds.headD '0' == '0' then none
  else
    let fracRes : Option (List Char × List Char) :=
      match rest1 with
      | '.' :: r2 =>
        let fds := r2.takeWhile Char.isDigit
        if fds.isEmpty then none else some ('.' :: fds, r2.dropWhile Char.isDigit)
      | _ => some ([], rest1)
    match fracRes with
    | none => none
    | some (fracChars, rest2) =>
      let expRes : Option (List Char × List Char) :=
        match rest2 with
        | e :: r3 =>
          if e == 'e' || e == 'E' then
            let sr :=
              match r3 with
              | s :: r4a => if s == '+' || s == '-' then ([s], r4a) else (([] : List Char), r3)
              | [] => (([] : List Char), r3)
            let eds := sr.2.takeWhile Char.isDigit
            if eds.isEmpty then none
            else some (e :: (sr.1 ++ eds), sr.2.dropWhile Char.isDigit)
          else some ([], rest2)
        | [] => some ([], rest2)
      match expRes with
      | none => none
      | some (expChars, rest3) =>
        if fracChars.isEmpty && expChars.isEmpty then
          some (.num (if neg then -(digitsToNat ds : Int) else (digitsToNat ds : Int)), rest3)
        else
          some (.fnum ⟨(if neg then ['-'] else []) ++ ds ++ fracChars ++ expChars⟩, rest3)

mutual

/-- One JSON value, fuel-bounded recursive descent following the Python
json scanner, including its NaN and Infinity constants. -/
def parseValue : Nat → List Char → Option (Json × List Char)
  | 0, _ => none
  | fuel + 1, cs =>
    match skipWs cs with
    | 'n' :: 'u' :: 'l' :: 'l' :: rest => some (.null, rest)
    | 't' :: 'r' :: 'u' :: 'e' :: rest => some (.bool true, rest)
    | 'f' :: 'a' :: 'l' :: 's' :: 'e' :: rest => some (.bool false, rest)
    | 'N' :: 'a' :: 'N' :: rest => some (.fnum "NaN", rest)
    | 'I' :: 'n' :: 'f' :: 'i' :: 'n' :: 'i' :: 't' :: 'y' :: rest =>
      some (.fnum "Infinity", rest)
    | '-' :: 'I' :: 'n' :: 'f' :: 'i' :: 'n' :: 'i' :: 't' :: 'y' :: rest =>
      some (.fnum "-Infinity", rest)
    | '"' :: rest =>
      match parseStringChars rest with
      | some (cs2, r) => some (.str ⟨cs2⟩, r)
      | none => none
    | '[' :: rest =>
      match skipWs rest with
      | ']' :: rest2 => some (.arr [], rest2)
      | _ =>
        match parseArrayItems fuel (skipWs rest) with
        | some (xs, r) => some (.arr xs, r)
        | none => none
    | '\x7b' :: rest =>
      match skipWs rest with
      | '\x7d' :: rest2 => some (.obj [], rest2)
      | _ =>
        match parseObjItems fuel (skipWs rest) with
        | some (kvs, r) => some (.obj kvs, r)
        | none => none
    | c :: rest => if c == '-' || c.isDigit then parseNumber (c :: rest) else none
    | [] => none

/-- Comma-separated JSON array items up to the closing bracket. -/
def parseArrayItems : Nat → List Char → Option (List Json × List Char)
  | 0, _ => none
  | fuel + 1, cs =>
    match parseValue fuel cs with
    | none => none
    | some (v, rest) =>
      match skipWs rest with
      | ',' :: rest2 =>
        match parseArrayItems fuel rest2 with
        | some (xs, r) => some (v :: xs, r)
        | none => none
      | ']' :: rest2 => some ([v], rest2)
      | _ => none

/-- Comma-separated JSON object members up to the closing brace. -/
def parseObjItems : Nat → List Char → Option (List (String × Json) × List Char)
  | 0, _ => none
  | fuel + 1, cs =>
    match skipWs cs with
    | '"' :: rest =>
      match parseStringChars rest with
      | none => none
      | some (kcs, rest2) =>
        match skipWs rest2 with
        | ':' :: rest3 =>
          match parseValue fuel rest3 with
          | none => none
          | some (v, rest4) =>
            match skipWs rest4 with
            | ',' :: rest5 =>
              match parseObjItems fuel rest5 with
              | some (kvs, r) => some ((⟨kcs⟩, v) :: kvs, r)
              | none => none
            | '\x7d' :: rest5 => some ([(⟨kcs⟩, v)], rest5)
            | _ => none
        | _ => none
    | _ => none

end

/-- Embedding of json loads: parse one value and require only whitespace
after it. -/
def json_loads (s : String) : Option Json :=
  match parseValue (2 * s.data.length + 2) s.data with
  | some (v, rest) => if (skipWs rest).isEmpty then some v else none
  | none => none

/-- Lowercase hexadecimal digit. -/
def hexDigit (n : Nat) : Char :=
  if n < 10 then Char.ofNat ('0'.toNat + n) else Char.ofNat ('a'.toNat + n - 10)

/-- Escaping of one character inside a dumped JSON string, non-ASCII kept
verbatim as with ensure_ascii disabled. -/
def jsonQuoteChar (c : Char) : List Char :=
  if c == '"' then ['\\', '"']
  else if c == '\\' then ['\\', '\\']
  else if c == '\n' then ['\\', 'n']
  else if c == '\t' then ['\\', 't']
  else if c == '\r' then ['\\', 'r']
  else if c == '\x08' then ['\\', 'b']
  else if c == '\x0c' then ['\\', 'f']
  else if c.toNat < 0x20 then
    ['\\', 'u', '0', '0', hexDigit (c.toNat / 16), hexDigit (c.toNat % 16)]
  else [c]

/-- A dumped JSON string with its quotes. -/
def jsonQuote (s : String) : String :=
  ⟨'"' :: (s.data.map jsonQuoteChar).flatten ++ ['"']⟩

/-- Embedding of the json dumps call on the indexed entry list built by
translate_lines, with the default item and key separators. -/
def dumpsEntries (lines : List String) : String :=
  "[" ++ String.intercalate ", " (lines.enum.map (fun p =>
    "\x7b\"id\": " ++ toString p.1 ++ ", \"text\": " ++ jsonQuote p.2 ++ "\x7d")) ++ "]"

/-- The batch prompt built for each structured attempt. -/
def batchPrompt (lines : List String) : String :=
  "Translate the following subtitle text entries from English to Russian.\n" ++
  "Return ONLY a JSON array of objects with fields \"id\" and \"text\".\n" ++
  "Keep exactly " ++ toString lines.length ++ " entries, same order, and the same ids.\n" ++
  "If a line is empty, return an empty string in \"text\".\n" ++
  "Entries:\n" ++ dumpsEntries lines ++ "\n"

/-- The per-line prompt built in fallback mode. -/
def linePrompt (line : String) : String :=
  "Translate the following subtitle text line from English to Russian.\n" ++
  "Return ONLY the translated line with no extra text.\n" ++
  "Line:\n" ++ line ++ "\n"

/-- Embedding of call_codex: the external process behind the k-th call is
modeled by the oracle function; none models a failing invocation, which
raises at the point of call, and a returned output file text is stripped. -/
def call_codex (oracle : Nat → Option String) (k : Nat) : Option String :=
  (oracle k).map pyStripStr

/-- Python exceptions that the translation code can raise. -/
inductive PyErr where
  | valueError (msg : String)
  | jsonDecodeError
  | attributeError
  | invocationError
deriving DecidableEq

/-- Lookup in a Python dict built from parsed JSON object members, where a
later duplicate key overrides an earlier one. -/
def dictGet (kvs : List (String × Json)) (key : String) (dflt : Json) : Json :=
  match kvs.reverse.find? (fun kv => kv.1 == key) with
  | some kv => kv.2
  | none => dflt

/-- Escaping of one character in the Python repr of a string with quote
character q, non-printable handling approximated by ASCII controls. -/
def pyReprChar (q c : Char) : List Char :=
  if c == '\\' then ['\\', '\\']
  else if c == q then ['\\', q]
  else if c == '\n' then ['\\', 'n']
  else if c == '\r' then ['\\', 'r']
  else if c == '\t' then ['\\', 't']
  else if c.toNat < 0x20 || c.toNat == 0x7f then
    ['\\', 'x', hexDigit (c.toNat / 16), hexDigit (c.toNat % 16)]
  else [c]

/-- Python repr of a string: single-quoted unless the text contains a
single quote and no double quote. -/
def pyReprStr (s : String) : String :=
  let q : Char := if s.data.contains '\x27' && !(s.data.contains '"') then '"' else '\x27'
  ⟨q :: (s.data.map (pyReprChar q)).flatten ++ [q]⟩

mutual

/-- Python repr of a decoded JSON value. -/
def pyRepr : Json → String
  | .null => "None"
  | .bool true => "True"
  | .bool false => "False"
  | .num n => toString n
  | .fnum lit => lit
  | .str s => pyReprStr s
  | .arr xs => "[" ++ String.intercalate ", " (pyReprList xs) ++ "]"
  | .obj kvs => "\x7b" ++ String.intercalate ", " (pyReprPairs kvs) ++ "\x7d"

/-- Reprs of the elements of a list value. -/
def pyReprList : List Json → List String
  | [] => []
  | x :: xs => pyRepr x :: pyReprList xs

/-- Reprs of the members of a dict value. -/
def pyReprPairs : List (String × Json) → List String
  | [] => []
  | (k, v) :: kvs => (pyReprStr k ++ ": " ++ pyRepr v) :: pyReprPairs kvs

end

/-- Python str of a decoded JSON value; for lists and dicts this is their
repr, and the float case keeps the parsed literal. -/
def pyStr : Json → String
  | .null => "None"
  | .bool true => "True"
  | .bool false => "False"
  | .num n => toString n
  | .fnum lit => lit
  | .str s => s
  | .arr xs => pyRepr (.arr xs)
  | .obj kvs => pyRepr (.obj kvs)

/-- First index of a character in a string, as the find method. -/
def pyFindIdx (s : String) (c : Char) : Option Nat :=
  s.data.findIdx? (fun x => x == c)

/-- Last index of a character in a string, as the rfind method. -/
def pyRfindIdx (s : String) (c : Char) : Option Nat :=
  match s.data.reverse.findIdx? (fun x => x == c) with
  | some i => some (s.data.length - 1 - i)
  | none => none

/-- Python slice of a string from index a up to but excluding index b, for
indices in range. -/
def pySlice (s : String) (a b : Nat) : String :=
  ⟨(s.data.drop a).take (b - a)⟩

/-- Extraction of the texts from a contract-valid array, lines 92 to 95: if
the first element is a dict, take the text field of every element, raising
an attribute error on any non-dict element; otherwise coerce every element
to its string form, with None becoming the empty string. -/
def extract_texts (translated : List Json) : Except PyErr (List Json) :=
  match translated.head? with
  | some (.obj _) =>
    translated.mapM (fun item =>
      match item with
      | .obj kvs => Except.ok (dictGet kvs "text" (.str ""))
      | _ => Except.error PyErr.attributeError)
  | _ =>
    Except.ok (translated.map (fun item =>
      match item with
      | .null => Json.str ""
      | it => Json.str (pyStr it)))

/-- Outcome of one structured attempt body: return the texts, raise an
exception, continue with the next attempt, or break to the fallback. -/
inductive AttemptRes where
  | ret (texts : List Json)
  | raise (e : PyErr)
  | cont
  | fallb

/-- Contract validation of a parsed response, lines 91 to 100: a list of
the expected length is extracted and returned, anything else falls to the
end of the loop body, which breaks to the fallback on the third attempt. -/
def afterParse (lines : List String) (attempt : Nat) (translated : Json) : AttemptRes :=
  let endOfBody : AttemptRes := if attempt == 2 then .fallb else .cont
  match translated with
  | .arr items =>
    if items.length == lines.length then
      match extract_texts items with
      | .error e => .raise e
      | .ok texts => if texts.length == lines.length then .ret texts else endOfBody
    else endOfBody
  | _ => endOfBody

/-- Parse handling of one raw response, lines 80 to 100: direct parse, then
bracket-substring recovery, where a missing bracket pair continues or, on
the third attempt, raises a value error, and a failing substring parse
raises a json decode error uncaught. -/
def resultOfRaw (lines : List String) (attempt : Nat) (raw : String) : AttemptRes :=
  match json_loads raw with
  | some translated => afterParse lines attempt translated
  | none =>
    match pyFindIdx raw '[', pyRfindIdx raw ']' with
    | some a, some b =>
      match json_loads (pySlice raw a (b + 1)) with
      | some translated => afterParse lines attempt translated
      | none => .raise .jsonDecodeError
    | _, _ =>
      if attempt == 2 then
        .raise (.valueError ("Model response is not JSON array: " ++ raw))
      else .cont

/-- Fallback loop, lines 102 to 112: empty lines become empty strings with
no oracle call, other lines are translated one call each, and an
invocation failure is fatal.  The call log of prompts is threaded. -/
def fallbackLoop (oracle : Nat → Option String) (k : Nat) (log : List String)
    (acc : List Json) : List String → Except PyErr (List Json) × List String
  | [] => (.ok acc, log)
  | line :: rest =>
    if line == "" then
      fallbackLoop oracle k log (acc ++ [.str ""]) rest
    else
      match call_codex oracle k with
      | none => (.error .invocationError, log ++ [linePrompt line])
      | some resp =>
        fallbackLoop oracle (k + 1) (log ++ [linePrompt line])
          (acc ++ [.str (pyStripStr resp)]) rest

/-- Fallback phase with the final length assertion of lines 113 to 115. -/
def fallbackPhase (oracle : Nat → Option String) (lines : List String)
    (k : Nat) (log : List String) : Except PyErr (List Json) × List String :=
  match fallbackLoop oracle k log [] lines with
  | (.error e, log2) => (.error e, log2)
  | (.ok translated, log2) =>
    if translated.length != lines.length then
      (.error (.valueError "Translated output has unexpected length"), log2)
    else (.ok translated, log2)

/-- The attempt loop of lines 71 to 100 over the remaining attempt indices,
falling through to the fallback when the loop ends. -/
def structLoop (oracle : Nat → Option String) (lines : List String) (k : Nat)
    (log : List String) : List Nat → Except PyErr (List Json) × List String
  | [] => fallbackPhase oracle lines k log
  | attempt :: restAttempts =>
    let log2 := log ++ [batchPrompt lines]
    match call_codex oracle k with
    | none => (.error .invocationError, log2)
    | some raw =>
      match resultOfRaw lines attempt raw with
      | .ret texts => (.ok texts, log2)
      | .raise e => (.error e, log2)
      | .cont => structLoop oracle lines (k + 1) log2 restAttempts
      | .fallb => fallbackPhase oracle lines (k + 1) log2

/-- Embedding of translate_lines: empty input returns immediately,
otherwise three structured attempts run and then the fallback.  The result
pairs the returned value or raised exception with the list of prompts
sent to the oracle, in call order. -/
def translate_lines (oracle : Nat → Option String) (lines : List String) :
    Except PyErr (List Json) × List String :=
  if lines.isEmpty then (.ok [], [])
  else structLoop oracle lines 0 [] [0, 1, 2]

/-- Outcome of translating one file: success, or an uncaught exception with
a flag telling whether a partially written output file exists at the time
the exception reaches the handler, and the exception text. -/
inductive TFOut where
  | success
  | failure (leftOutput : Bool) (msg : String)

/-- Output path computed by main: the name with the srt suffix replaced by
the translated suffix. -/
def outName (p : String) : String := p.dropRight 4 ++ ".ru.srt"

/-- Exclusion test of main for files already bearing a translated name. -/
def excludedName (n : String) : Bool :=
  n.endsWith ".ru.srt" || n.endsWith "_ru.srt"

/-- Counters, error list, and the set of output files present on disk
during the run of main. -/
structure Report where
  found : Nat
  translated : Nat
  skipped : Nat
  errors : List String
  written : List String
deriving DecidableEq

/-- Initial state of main. -/
def initReport : Report := ⟨0, 0, 0, [], []⟩

/-- Body of the file loop of main, lines 155 to 169: skip translated names,
skip files whose output already exists, and on a failure delete the output
file if present and record the error, then continue. -/
def processOne (st : Report) (f : String × Bool × TFOut) : Report :=
  if excludedName f.1 then st
  else
    let st1 := { st with found := st.found + 1 }
    if f.2.1 then { st1 with skipped := st1.skipped + 1 }
    else
      match f.2.2 with
      | .success =>
        { st1 with translated := st1.translated + 1,
                   written := st1.written ++ [outName f.1] }
      | .failure leftOut msg =>
        let wr := if leftOut then st1.written ++ [outName f.1] else st1.written
        let wr2 := if outName f.1 ∈ wr then wr.erase (outName f.1) else wr
        { st1 with errors := st1.errors ++ [f.1 ++ ": " ++ msg], written := wr2 }

/-- Embedding of main over the discovered files, each given with its name,
whether its output already exists, and the outcome of translating it; the
second component is the process exit status of line 182. -/
def runMain (files : List (String × Bool × TFOut)) : Report × Nat :=
  let r := files.foldl processOne initReport
  (r, if r.errors.isEmpty then 0 else 1)


/-- A character whose break test is false is not a carriage return. -/
theorem ne_cr_of_not_break {c : Char} (h : isLineBreakChar c = false) : c ≠ '\r' := by
  intro he
  subst he
  simp [isLineBreakChar] at h

/-- Unfolding of splitlinesL at a non-break character. -/
theorem splitlinesL_cons_not_break (c : Char) (cs : List Char)
    (h : isLineBreakChar c = false) :
    splitlinesL (c :: cs) =
      match splitlinesL cs with
      | [] => [[c]]
      | l :: ls => (c :: l) :: ls := by
  have hcr : c ≠ '\r' := ne_cr_of_not_break h
  rw [splitlinesL.eq_def]
  split
  · next heq => simp at heq
  · next _ d cs2 heq =>
    injection heq with h1 h2
    subst h1
    subst h2
    rw [if_neg hcr, if_neg (by simp [h] : ¬ isLineBreakChar c = true)]

/-- Unfolding of splitlinesL at a break character other than a carriage
return. -/
theorem splitlinesL_break (c : Char) (cs : List Char)
    (hb : isLineBreakChar c = true) (hcr : c ≠ '\r') :
    splitlinesL (c :: cs) = [] :: splitlinesL cs := by
  rw [splitlinesL.eq_def]
  split
  · next heq => simp at heq
  · next _ d cs2 heq =>
    injection heq with h1 h2
    subst h1
    subst h2
    rw [if_neg hcr, if_pos hb]

/-- Unfolding of splitlinesL at a newline. -/
theorem splitlinesL_nl (cs : List Char) : splitlinesL ('\n' :: cs) = [] :: splitlinesL cs :=
  splitlinesL_break '\n' cs (by decide) (by decide)

/-- Splitting a break-free prefix followed by a newline peels off one line. -/
theorem splitlinesL_append_nl (cs rest : List Char)
    (h : ∀ c ∈ cs, isLineBreakChar c = false) :
    splitlinesL (cs ++ '\n' :: rest) = cs :: splitlinesL rest := by
  induction cs with
  | nil => simpa using splitlinesL_nl rest
  | cons c cs ih =>
    have hc := h c (List.mem_cons_self c cs)
    have ih2 := ih (fun x hx => h x (List.mem_cons_of_mem c hx))
    rw [List.cons_append, splitlinesL_cons_not_break c _ hc, ih2]

/-- Splitting a non-empty break-free text yields that single line. -/
theorem splitlinesL_single (cs : List Char) (hne : cs ≠ [])
    (h : ∀ c ∈ cs, isLineBreakChar c = false) :
    splitlinesL cs = [cs] := by
  induction cs with
  | nil => exact absurd rfl hne
  | cons c cs ih =>
    have hc := h c (List.mem_cons_self c cs)
    rw [splitlinesL_cons_not_break c _ hc]
    rcases cs with _ | ⟨d, cs⟩
    · rfl
    · rw [ih (by simp) (fun x hx => h x (List.mem_cons_of_mem c hx))]

/-- Splitting break-free lines joined by newlines and followed by a newline
and further text yields those lines followed by the split of the rest. -/
theorem splitlinesL_joinSep_append (lines : List (List Char)) (rest : List Char)
    (hne : lines ≠ []) (h : ∀ l ∈ lines, ∀ c ∈ l, isLineBreakChar c = false) :
    splitlinesL (joinSep ['\n'] lines ++ '\n' :: rest) = lines ++ splitlinesL rest := by
  induction lines with
  | nil => exact absurd rfl hne
  | cons x t ih =>
    rcases t with _ | ⟨y, t⟩
    · rw [joinSep]
      exact splitlinesL_append_nl x rest (h x (List.mem_cons_self x []))
    · rw [joinSep, List.append_assoc, List.append_assoc, List.singleton_append]
      rw [splitlinesL_append_nl x _ (h x (List.mem_cons_self _ _))]
      rw [ih (by simp) (fun l hl => h l (List.mem_cons_of_mem x hl))]
      rfl

/-- Splitting break-free non-empty lines joined by newlines yields exactly
those lines, when each line is non-empty. -/
theorem splitlinesL_joinSep (lines : List (List Char)) (hne : lines ≠ [])
    (h : ∀ l ∈ lines, ∀ c ∈ l, isLineBreakChar c = false)
    (hl : ∀ l ∈ lines, l ≠ []) :
    splitlinesL (joinSep ['\n'] lines) = lines := by
  induction lines with
  | nil => exact absurd rfl hne
  | cons x t ih =>
    rcases t with _ | ⟨y, t⟩
    · rw [joinSep]
      exact splitlinesL_single x (hl x (List.mem_cons_self x []))
        (h x (List.mem_cons_self x []))
    · rw [joinSep, List.append_assoc, List.singleton_append]
      rw [splitlinesL_append_nl x _ (h x (List.mem_cons_self _ _))]
      rw [ih (by simp) (fun l hm => h l (List.mem_cons_of_mem x hm))
        (fun l hm => hl l (List.mem_cons_of_mem x hm))]

/-- A well-formed block: at least index line, time line and one text line,
every line free of line break characters and not blank. -/
def wellFormedBlock (b : List String) : Prop :=
  3 ≤ b.length ∧
    ∀ l ∈ b, (∀ c ∈ l.data, isLineBreakChar c = false) ∧ (pyStrip l.data).isEmpty = false

instance (b : List String) : Decidable (wellFormedBlock b) := by
  unfold wellFormedBlock
  infer_instance

/-- A well-formed subtitle file source: a non-empty list of well-formed
blocks. -/
def wellFormedSrt (bs : List (List String)) : Prop :=
  bs ≠ [] ∧ ∀ b ∈ bs, wellFormedBlock b

instance (bs : List (List String)) : Decidable (wellFormedSrt bs) := by
  unfold wellFormedSrt
  infer_instance

/-- A non-blank line is non-empty. -/
theorem data_ne_nil_of_not_blank {l : String} (h : (pyStrip l.data).isEmpty = false) :
    l.data ≠ [] := by
  intro he
  rw [he] at h
  simp [pyStrip] at h

/-- Unfolding of joinSep on a single chunk. -/
theorem joinSep_single (sep : List α) (x : List α) : joinSep sep [x] = x := rfl

/-- Unfolding of joinSep on two or more chunks. -/
theorem joinSep_cons2 (sep x y : List α) (rest : List (List α)) :
    joinSep sep (x :: y :: rest) = x ++ sep ++ joinSep sep (y :: rest) := rfl

/-- Splitting the rendered text of well-formed blocks recovers the lines of
the blocks, with one empty line between consecutive blocks. -/
theorem splitlinesL_srtText (bs : List (List String)) (hne : bs ≠ [])
    (h : ∀ b ∈ bs, b ≠ [] ∧ ∀ l ∈ b,
      (∀ c ∈ l.data, isLineBreakChar c = false) ∧ l.data ≠ []) :
    splitlinesL (joinSep ['\n', '\n'] (bs.map blockChars)) =
      joinSep [[]] (bs.map (fun b => b.map String.data)) := by
  induction bs with
  | nil => exact absurd rfl hne
  | cons b t ih =>
    have hb := h b (List.mem_cons_self b t)
    have hlines : ∀ l ∈ b.map String.data, ∀ c ∈ l, isLineBreakChar c = false := by
      intro l hl c hc
      obtain ⟨x, hx, rfl⟩ := List.mem_map.mp hl
      exact (hb.2 x hx).1 c hc
    have hnonempty : ∀ l ∈ b.map String.data, l ≠ [] := by
      intro l hl
      obtain ⟨x, hx, rfl⟩ := List.mem_map.mp hl
      exact (hb.2 x hx).2
    have hmapne : b.map String.data ≠ [] := by
      simp [hb.1]
    rcases t with _ | ⟨b2, t⟩
    · simp only [List.map_cons, List.map_nil, joinSep_single, blockChars]
      exact splitlinesL_joinSep (b.map String.data) hmapne hlines hnonempty
    · simp only [List.map_cons]
      rw [joinSep_cons2, joinSep_cons2, blockChars, List.append_assoc]
      rw [List.cons_append, List.cons_append, List.nil_append]
      rw [splitlinesL_joinSep_append (b.map String.data) _ hmapne hlines]
      rw [splitlinesL_nl]
      have ih2 := ih (by simp) (fun x hx => h x (List.mem_cons_of_mem b hx))
      simp only [List.map_cons] at ih2
      rw [ih2]
      simp

/-- The parse loop on a run of non-blank lines only accumulates, emitting
one final block. -/
theorem parseSrtAux_no_blank (b : List String) :
    ∀ acc : List String, (∀ l ∈ b, (pyStrip l.data).isEmpty = false) →
    parseSrtAux acc b = if (acc ++ b).isEmpty then [] else [acc ++ b] := by
  induction b with
  | nil => intro acc _; simp [parseSrtAux]
  | cons l t ih =>
    intro acc h
    rw [parseSrtAux, if_neg (by simp [h l (List.mem_cons_self l t)])]
    rw [ih (acc ++ [l]) (fun x hx => h x (List.mem_cons_of_mem l hx))]
    simp

/-- The parse loop on a non-blank run followed by an empty line emits the
accumulated block and continues on the rest. -/
theorem parseSrtAux_block (b : List String) :
    ∀ (acc rest : List String), (∀ l ∈ b, (pyStrip l.data).isEmpty = false) →
    acc ++ b ≠ [] →
    parseSrtAux acc (b ++ "" :: rest) = (acc ++ b) :: parseSrtAux [] rest := by
  induction b with
  | nil =>
    intro acc rest _ hne
    rw [List.nil_append, parseSrtAux, if_pos (by simp [pyStrip])]
    rw [if_neg (by simpa using hne)]
    simp
  | cons l t ih =>
    intro acc rest h _
    rw [List.cons_append, parseSrtAux,
      if_neg (by simp [h l (List.mem_cons_self l t)])]
    rw [ih (acc ++ [l]) rest (fun x hx => h x (List.mem_cons_of_mem l hx)) (by simp)]
    simp

/-- Parsing the line lists of non-empty all-non-blank blocks joined by one
empty line recovers the blocks. -/
theorem parseSrtAux_joinSep (bs : List (List String))
    (h : ∀ b ∈ bs, b ≠ [] ∧ ∀ l ∈ b, (pyStrip l.data).isEmpty = false) :
    parseSrtAux [] (joinSep [""] bs) = bs := by
  induction bs with
  | nil => simp [joinSep, parseSrtAux]
  | cons b t ih =>
    have hb := h b (List.mem_cons_self b t)
    rcases t with _ | ⟨b2, t⟩
    · rw [joinSep_single, parseSrtAux_no_blank b [] hb.2]
      simp [hb.1]
    · rw [joinSep_cons2, List.append_assoc, List.singleton_append]
      rw [parseSrtAux_block b [] _ hb.2 (by simpa using hb.1)]
      rw [ih (fun x hx => h x (List.mem_cons_of_mem b hx))]
      simp

/-- Mapping string construction over the char-level line structure of
blocks gives the string-level lines with an empty separator line. -/
theorem map_mk_joinSep (bs : List (List String)) :
    (joinSep [[]] (bs.map (fun b => b.map String.data))).map String.mk =
      joinSep [""] bs := by
  induction bs with
  | nil => simp [joinSep]
  | cons b t ih =>
    rcases t with _ | ⟨b2, t⟩
    · simp only [List.map_cons, List.map_nil, joinSep_single]
      rw [List.map_map, show String.mk ∘ String.data = id from funext fun s => rfl,
        List.map_id]
    · simp only [List.map_cons] at ih ⊢
      rw [joinSep_cons2, joinSep_cons2]
      rw [List.map_append, List.map_append, ih]
      rw [List.map_map, show String.mk ∘ String.data = id from funext fun s => rfl,
        List.map_id]
      rfl

/-- Parsing the rendered text of a well-formed block list recovers exactly
that block list. -/
theorem parse_srtText (bs : List (List String)) (h : wellFormedSrt bs) :
    parse_srt_blocks (srtText bs) = bs := by
  obtain ⟨hne, hwf⟩ := h
  have hcond : ∀ b ∈ bs, b ≠ [] ∧ ∀ l ∈ b,
      (∀ c ∈ l.data, isLineBreakChar c = false) ∧ l.data ≠ [] := by
    intro b hb
    obtain ⟨hlen, hl⟩ := hwf b hb
    refine ⟨by intro he; subst he; simp at hlen, fun l hml => ?_⟩
    exact ⟨(hl l hml).1, data_ne_nil_of_not_blank (hl l hml).2⟩
  have hcond2 : ∀ b ∈ bs, b ≠ [] ∧ ∀ l ∈ b, (pyStrip l.data).isEmpty = false := by
    intro b hb
    obtain ⟨hlen, hl⟩ := hwf b hb
    exact ⟨by intro he; subst he; simp at hlen, fun l hml => (hl l hml).2⟩
  show parseSrtAux [] ((splitlinesL (srtText bs).data).map String.mk) = bs
  rw [show (srtText bs).data = joinSep ['\n', '\n'] (bs.map blockChars) from rfl]
  rw [splitlinesL_srtText bs hne hcond, map_mk_joinSep, parseSrtAux_joinSep bs hcond2]

/-- Appending the separator to a joined non-empty list distributes it into
every chunk. -/
theorem joinSep_append_sep (sep : List α) (bs : List (List α)) (h : bs ≠ []) :
    joinSep sep bs ++ sep = (bs.map (fun x => x ++ sep)).flatten := by
  induction bs with
  | nil => exact absurd rfl h
  | cons x t ih =>
    rcases t with _ | ⟨y, t⟩
    · simp [joinSep_single]
    · rw [joinSep_cons2, List.map_cons, List.flatten_cons]
      rw [← ih (by simp)]
      simp

/-- The written translated lines are the flattened newline-terminated
lines. -/
theorem writeTransLines_eq (ts : List String) :
    writeTransLines ts = (ts.map (fun t => t.data ++ ['\n'])).flatten := by
  induction ts with
  | nil => rfl
  | cons t ts ih => simp [writeTransLines, ih]

/-- Serializing one block of at least two lines with its own text lines
writes every line of the block, each newline-terminated, then the blank
separator. -/
theorem serializeBlock_id (b : List String) (hb : 2 ≤ b.length) :
    serializeBlock b (blockTextLines b) =
      (b.map (fun l => l.data ++ ['\n'])).flatten ++ ['\n'] := by
  rcases b with _ | ⟨x, _ | ⟨y, rest⟩⟩
  · simp at hb
  · simp at hb
  · simp [serializeBlock, blockTextLines, writeTransLines_eq]

/-- Serializing a batch whose blocks all have index and time lines against
its own flattened text lines writes each block in full. -/
theorem serializeBatch_id (batch : List (List String))
    (h : ∀ b ∈ batch, 2 ≤ b.length) :
    serializeBatch batch (batchTextLines batch) =
      (batch.map (fun b => (b.map (fun l => l.data ++ ['\n'])).flatten ++ ['\n'])).flatten := by
  induction batch with
  | nil => rfl
  | cons b t ih =>
    have hsplit : batchTextLines (b :: t) = blockTextLines b ++ batchTextLines t := by
      simp [batchTextLines]
    rw [serializeBatch, hsplit, List.take_left, List.drop_left]
    rw [serializeBlock_id b (h b (List.mem_cons_self b t))]
    rw [ih (fun x hx => h x (List.mem_cons_of_mem b hx))]
    simp

/-- The batches of a block list flatten back to the block list. -/
theorem toBatches_flatten (l : List (List String)) : (toBatches l).flatten = l := by
  rw [toBatches]
  by_cases he : l.isEmpty
  · simp_all
  · rw [if_neg he]
    rw [List.flatten_cons, toBatches_flatten (l.drop BATCH_SIZE)]
    exact List.take_append_drop BATCH_SIZE l
termination_by l.length
decreasing_by
  simp only [List.isEmpty_eq_true] at *
  have : l.length ≠ 0 := by
    intro h0
    exact (by assumption : ¬ l = []) (List.length_eq_zero.mp h0)
  simp [List.length_drop, BATCH_SIZE]
  omega

/-- Flattening per-batch flattened maps equals mapping over the flattened
batches. -/
theorem flatten_map_batches (g : List String → List Char)
    (bss : List (List (List String))) :
    (bss.map (fun batch => (batch.map g).flatten)).flatten =
      ((bss.flatten).map g).flatten := by
  induction bss with
  | nil => rfl
  | cons b t ih => simp [ih]

/-- The newline-terminated lines of a block of at least two lines are its
rendered characters followed by the block separator. -/
theorem blockChars_append_sep (b : List String) (hb : 2 ≤ b.length) :
    (b.map (fun l => l.data ++ ['\n'])).flatten ++ ['\n'] = blockChars b ++ ['\n', '\n'] := by
  have hbne : b ≠ [] := by
    intro he
    subst he
    simp at hb
  have h2 : blockChars b ++ ['\n'] = (b.map (fun l => l.data ++ ['\n'])).flatten := by
    rw [blockChars, joinSep_append_sep ['\n'] (b.map String.data) (by simp [hbne])]
    rw [List.map_map]
    rfl
  rw [← h2, List.append_assoc]
  rfl

/-- Reassembling well-formed blocks with the identity translation rebuilds
the rendered text with one trailing blank line appended. -/
theorem reassembleWithIdentity_eq (bs : List (List String)) (hne : bs ≠ [])
    (h : ∀ b ∈ bs, 2 ≤ b.length) :
    reassembleWithIdentity bs = srtText bs ++ "\n\n" := by
  have hbatch : ∀ batch ∈ toBatches bs,
      serializeBatch batch (batchTextLines batch) =
        (batch.map (fun b => (b.map (fun l => l.data ++ ['\n'])).flatten ++ ['\n'])).flatten := by
    intro batch hmem
    refine serializeBatch_id batch (fun b hb => h b ?_)
    rw [← toBatches_flatten bs]
    exact List.mem_flatten.mpr ⟨batch, hmem, hb⟩
  have hchars : ((toBatches bs).map
      (fun batch => serializeBatch batch (batchTextLines batch))).flatten =
      joinSep ['\n', '\n'] (bs.map blockChars) ++ ['\n', '\n'] := by
    rw [List.map_congr_left hbatch]
    rw [flatten_map_batches, toBatches_flatten]
    rw [joinSep_append_sep _ _ (by simp [hne])]
    rw [List.map_map]
    congr 1
    refine List.map_congr_left (fun b hb => ?_)
    show (b.map (fun l => l.data ++ ['\n'])).flatten ++ ['\n'] =
      blockChars b ++ ['\n', '\n']
    exact blockChars_append_sep b (h b hb)
  show String.mk (((toBatches bs).map
      (fun batch => serializeBatch batch (batchTextLines batch))).flatten) = _
  rw [hchars]
  rfl

/-- C3: for any input text composed of well-formed blocks, each with an
index line, a time line and at least one text line, separated by exactly
one blank line, parsing the text into blocks and then reassembling with
the identity translation, where each translated line equals the original
line, reproduces the original file byte for byte modulo trailing blank
line normalization: the output is exactly the input text followed by the
final newline and blank separator line. -/
theorem c3_parse_reassemble_roundtrip (bs : List (List String)) (h : wellFormedSrt bs) :
    parse_srt_blocks (srtText bs) = bs ∧
      reassembleWithIdentity (parse_srt_blocks (srtText bs)) = srtText bs ++ "\n\n" := by
  have hp := parse_srtText bs h
  refine ⟨hp, ?_⟩
  rw [hp]
  refine reassembleWithIdentity_eq bs h.1 (fun b hb => ?_)
  have := (h.2 b hb).1
  omega

/-- Witness for C3 at a concrete two-block file. -/
theorem c3_witness :
    parse_srt_blocks (srtText [["1", "00:00:01,000 --> 00:00:02,000", "Hello", "World"],
        ["2", "00:00:03,000 --> 00:00:04,000", "Goodbye"]]) =
      [["1", "00:00:01,000 --> 00:00:02,000", "Hello", "World"],
        ["2", "00:00:03,000 --> 00:00:04,000", "Goodbye"]] ∧
    reassembleWithIdentity (parse_srt_blocks
        (srtText [["1", "00:00:01,000 --> 00:00:02,000", "Hello", "World"],
          ["2", "00:00:03,000 --> 00:00:04,000", "Goodbye"]])) =
      srtText [["1", "00:00:01,000 --> 00:00:02,000", "Hello", "World"],
        ["2", "00:00:03,000 --> 00:00:04,000", "Goodbye"]] ++ "\n\n" :=
  c3_parse_reassemble_roundtrip _ (by decide)

/-- Splitting the newline-terminated translated lines followed by the blank
separator yields those lines and one final empty line. -/
theorem splitlinesL_writeTrans (ts : List String)
    (h : ∀ t ∈ ts, ∀ c ∈ t.data, isLineBreakChar c = false) :
    splitlinesL (writeTransLines ts ++ ['\n']) = ts.map String.data ++ [[]] := by
  induction ts with
  | nil => simpa using splitlinesL_nl []
  | cons t ts ih =>
    rw [writeTransLines, List.append_assoc, List.cons_append]
    rw [splitlinesL_append_nl t.data _ (h t (List.mem_cons_self t ts))]
    rw [ih (fun x hx => h x (List.mem_cons_of_mem t hx))]
    rfl

/-- C9: the serialized output of any block consists of the first line, then
the second line or an empty line in its place when the block has fewer
than two lines, then the translated text lines, then one blank separator
line, for a total of two plus the text line count plus one lines; a block
with a single line therefore serializes to a different shape than its own
line list. -/
theorem c9_serialized_block_shape (b : List String) (tr : List String)
    (h0 : ∀ c ∈ (b.headD "").data, isLineBreakChar c = false)
    (h1 : ∀ c ∈ (b[1]?.getD "").data, isLineBreakChar c = false)
    (htr : ∀ t ∈ tr, ∀ c ∈ t.data, isLineBreakChar c = false) :
    (splitlinesL (serializeBlock b tr)).map String.mk =
      (b.headD "") :: (b[1]?.getD "") :: (tr ++ [""]) ∧
    (splitlinesL (serializeBlock b tr)).length = 2 + tr.length + 1 := by
  have hchars : splitlinesL (serializeBlock b tr) =
      (b.headD "").data :: (b[1]?.getD "").data :: (tr.map String.data ++ [[]]) := by
    rw [serializeBlock, List.append_assoc, List.cons_append]
    rw [splitlinesL_append_nl _ _ h0]
    rw [splitlinesL_append_nl _ _ h1]
    rw [splitlinesL_writeTrans tr htr]
  constructor
  · rw [hchars]
    simp only [List.map_cons, List.map_append, List.map_map]
    rw [show String.mk ∘ String.data = id from funext fun s => rfl, List.map_id]
    rfl
  · rw [hchars]
    simp
    omega

/-- Witness for C9 at a one-line block: the missing time line is written as
an empty line and the output block has two plus one plus one lines. -/
theorem c9_witness :
    (splitlinesL (serializeBlock ["7"] ["Текст"])).map String.mk =
      "7" :: "" :: (["Текст"] ++ [""]) ∧
    (splitlinesL (serializeBlock ["7"] ["Текст"])).length = 2 + 1 + 1 :=
  c9_serialized_block_shape ["7"] ["Текст"] (by decide) (by decide) (by decide)

/-- C8: on the empty input list translate_lines returns the empty list at
once, with no oracle call and no structured attempt: the call log is
empty. -/
theorem c8_empty_input (oracle : Nat → Option String) :
    translate_lines oracle [] = (.ok [], []) := rfl

/-- C7: a response wrapping the JSON array in prose is recovered by the
bracket substring extraction: for the one-line input the single translated
line is returned from the first structured attempt. -/
theorem c7_bracket_recovery :
    translate_lines (fun _ => some "Here you go:\n[\x7b\"id\":0,\"text\":\"Привет\"\x7d]\nThanks!")
        ["Hello"] =
      (.ok [.str "Привет"], [batchPrompt ["Hello"]]) := rfl

/-- C10: a structured response of the correct length whose first element is
an object but whose second element is a bare string raises an uncaught
attribute error from the text field extraction, fatal for the file, on the
very first attempt. -/
theorem c10_mixed_array_raises :
    translate_lines (fun _ => some "[\x7b\"id\": 0, \"text\": \"Привет\"\x7d, \"Мир\"]")
        ["Hello", "World"] =
      (.error .attributeError, [batchPrompt ["Hello", "World"]]) := rfl

/-- Counterexample to C1: an oracle that always answers malformed JSON with
no bracket pair produces three structured calls and then a raised value
error that escapes translate_lines; the per-line fallback never engages
and no fallback call occurs. -/
theorem c1_counterexample :
    translate_lines (fun _ => some "garbage") ["Hello"] =
      (.error (.valueError "Model response is not JSON array: garbage"),
        [batchPrompt ["Hello"], batchPrompt ["Hello"], batchPrompt ["Hello"]]) := rfl

/-- Counterexample to C2: an oracle invocation failure during the very
first structured attempt escapes translate_lines as a fatal error with no
retry and no fallback, even though two structured attempts and the
fallback remain. -/
theorem c2_counterexample :
    translate_lines (fun _ => none) ["Hello"] =
      (.error .invocationError, [batchPrompt ["Hello"]]) := rfl

/-- Counterexample to C4: in structured mode the output for an empty input
line is whatever text the oracle returned for it, here a non-empty string,
so empty inputs are not forced to empty outputs. -/
theorem c4_counterexample :
    translate_lines (fun _ => some "[\x7b\"id\": 0, \"text\": \"Непусто\"\x7d]") [""] =
      (.ok [.str "Непусто"], [batchPrompt [""]]) := rfl

/-- An oracle answering a fixed response on the three structured attempts
and another fixed response on every later call. -/
def retryOracle (bad good : String) : Nat → Option String :=
  fun k => if k < 3 then some bad else some good

/-- The fallback loop under an oracle constant from call three onward maps
empty lines to empty strings with no call and other lines to the constant
response, logging one per-line prompt per non-empty line. -/
theorem fallbackLoop_constant (oracle : Nat → Option String) (good : String)
    (hg : ∀ j, 3 ≤ j → oracle j = some good) (hgood : pyStripStr good = good)
    (ls : List String) :
    ∀ (k : Nat), 3 ≤ k → ∀ (log : List String) (acc : List Json),
    fallbackLoop oracle k log acc ls =
      (.ok (acc ++ ls.map (fun l => if l == "" then Json.str "" else Json.str good)),
        log ++ (ls.filter (fun l => !(l == ""))).map linePrompt) := by
  induction ls with
  | nil =>
    intro k hk log acc
    simp [fallbackLoop]
  | cons l t ih =>
    intro k hk log acc
    have hcall : call_codex oracle k = some good := by
      rw [call_codex, hg k hk]
      simp [hgood]
    by_cases hl : (l == "") = true
    · have heq : l = "" := by simpa using hl
      simp only [fallbackLoop, hl, if_true]
      rw [ih k hk log (acc ++ [Json.str ""])]
      simp [hl, heq]
    · have hne : l ≠ "" := by simpa using hl
      simp only [fallbackLoop, hl, if_false, hcall]
      rw [ih (k + 1) (by omega)]
      simp [hl, hgood, hne]

/-- Under an oracle whose first three answers parse to a JSON array of the
wrong length and whose later answers are a fixed line translation, the
three structured attempts are all discarded by contract validation and
translate_lines degrades to the per-line fallback: exactly three batch
prompts are sent, then one per-line prompt per non-empty line, and the
result maps empty lines to empty strings and other lines to the constant
response. -/
theorem translate_lines_contract_failure (oracle : Nat → Option String) (bad good : String)
    (hb : ∀ j, j < 3 → oracle j = some bad)
    (hg : ∀ j, 3 ≤ j → oracle j = some good)
    (hbads : pyStripStr bad = bad)
    (hbad : json_loads bad = some (Json.arr []))
    (hgood : pyStripStr good = good)
    (lines : List String) (hl : lines ≠ []) :
    translate_lines oracle lines =
      (.ok (lines.map (fun l => if l == "" then Json.str "" else Json.str good)),
        [batchPrompt lines, batchPrompt lines, batchPrompt lines] ++
          (lines.filter (fun l => !(l == ""))).map linePrompt) := by
  have hcall : ∀ j, j < 3 → call_codex oracle j = some bad := fun j hj => by
    rw [call_codex, hb j hj]
    simp [hbads]
  have hlen : (List.length ([] : List Json) == lines.length) = false := by
    simp
    intro he
    exact hl (List.length_eq_zero.mp he.symm)
  have hres : ∀ attempt, resultOfRaw lines attempt bad =
      (if attempt == 2 then AttemptRes.fallb else AttemptRes.cont) := by
    intro attempt
    rw [resultOfRaw, hbad]
    show afterParse lines attempt (Json.arr []) = _
    simp only [afterParse]
    simp only [hlen]
    simp
  rw [translate_lines, if_neg (by simp [hl])]
  rw [structLoop, hcall 0 (by omega)]
  simp only [hres 0, Nat.reduceBEq]
  rw [structLoop, hcall 1 (by omega)]
  simp only [hres 1, Nat.reduceBEq]
  rw [structLoop, hcall 2 (by omega)]
  simp only [hres 2, Nat.reduceBEq]
  rw [fallbackPhase, fallbackLoop_constant oracle good hg hgood lines 3 (by omega)]
  simp

/-- Amended C1: when the three structured responses do parse as JSON but
fail contract validation, here an array of the wrong length, the fallback
engages with exactly three structured calls followed by one fallback call
per non-empty line and no raised error; persistent responses that do not
parse at all instead raise, as the counterexample shows. -/
theorem c1_retry_then_fallback (lines : List String) (hl : lines ≠ []) :
    translate_lines (retryOracle "[]" "X") lines =
      (.ok (lines.map (fun l => if l == "" then Json.str "" else Json.str "X")),
        [batchPrompt lines, batchPrompt lines, batchPrompt lines] ++
          (lines.filter (fun l => !(l == ""))).map linePrompt) :=
  translate_lines_contract_failure (retryOracle "[]" "X") "[]" "X"
    (fun j hj => by simp only [retryOracle]; rw [if_pos hj])
    (fun j hj => by simp only [retryOracle]; rw [if_neg (by omega)])
    rfl rfl rfl lines hl

/-- Witness for the amended C1 at a concrete two-line input with one empty
line: three batch prompts then a single fallback prompt. -/
theorem c1_witness :
    translate_lines (retryOracle "[]" "X") ["Hello", ""] =
      (.ok (["Hello", ""].map (fun l => if l == "" then Json.str "" else Json.str "X")),
        [batchPrompt ["Hello", ""], batchPrompt ["Hello", ""], batchPrompt ["Hello", ""]] ++
          ((["Hello", ""].filter (fun l => !(l == ""))).map linePrompt)) :=
  c1_retry_then_fallback ["Hello", ""] (by simp)

/-- Amended C4: in fallback mode every empty input line maps to the empty
string with no oracle call for it, the log holding one per-line prompt
only per non-empty line; in structured mode the output for an empty line
is whatever the oracle response carries, as the counterexample shows. -/
theorem c4_blank_lines_fallback (lines : List String) (hl : lines ≠ []) :
    translate_lines (retryOracle "[]" "Y") lines =
      (.ok (lines.map (fun l => if l == "" then Json.str "" else Json.str "Y")),
        [batchPrompt lines, batchPrompt lines, batchPrompt lines] ++
          (lines.filter (fun l => !(l == ""))).map linePrompt) :=
  translate_lines_contract_failure (retryOracle "[]" "Y") "[]" "Y"
    (fun j hj => by simp only [retryOracle]; rw [if_pos hj])
    (fun j hj => by simp only [retryOracle]; rw [if_neg (by omega)])
    rfl rfl rfl lines hl

/-- Witness for the amended C4 at the single empty line: the result is the
empty string and no per-line prompt at all is logged. -/
theorem c4_witness :
    translate_lines (retryOracle "[]" "Y") [""] =
      (.ok ([""].map (fun l => if l == "" then Json.str "" else Json.str "Y")),
        [batchPrompt [""], batchPrompt [""], batchPrompt [""]] ++
          (([""].filter (fun l => !(l == ""))).map linePrompt)) :=
  c4_blank_lines_fallback [""] (by simp)

/-- Amended C2: an oracle invocation failure is propagated immediately as a
fatal error in both modes: in structured mode the first failing call
aborts translate_lines with no retry and no fallback, and in fallback
mode, reached here after three contract failures, the failing call is
fatal for the file. -/
theorem c2_invocation_failure_fatal :
    (∀ (oracle : Nat → Option String) (lines : List String), lines ≠ [] →
      oracle 0 = none →
      translate_lines oracle lines = (.error .invocationError, [batchPrompt lines])) ∧
    translate_lines (fun k => if k < 3 then some "[]" else none) ["Hi"] =
      (.error .invocationError,
        [batchPrompt ["Hi"], batchPrompt ["Hi"], batchPrompt ["Hi"], linePrompt "Hi"]) := by
  constructor
  · intro oracle lines hl h0
    rw [translate_lines, if_neg (by simp [hl])]
    rw [structLoop]
    rw [show call_codex oracle 0 = none from by rw [call_codex, h0]; rfl]
    rfl
  · rfl

/-- Witness for the amended C2 at a concrete input and failing oracle. -/
theorem c2_witness :
    translate_lines (fun _ => none) ["World"] =
      (.error .invocationError, [batchPrompt ["World"]]) :=
  c2_invocation_failure_fatal.1 (fun _ => none) ["World"] (by simp) rfl

/-- A successful monadic map over a list keeps its length. -/
theorem mapM_except_length (f : Json → Except PyErr Json) :
    ∀ (l : List Json) (res : List Json), l.mapM f = .ok res → res.length = l.length := by
  intro l
  induction l with
  | nil =>
    intro res h
    simp only [List.mapM_nil] at h
    cases h
    rfl
  | cons x xs ih =>
    intro res h
    rw [List.mapM_cons] at h
    cases hf : f x with
    | error e => rw [hf] at h; simp [Bind.bind, Except.bind] at h
    | ok y =>
      rw [hf] at h
      cases hm : xs.mapM f with
      | error e => rw [hm] at h; simp [Bind.bind, Except.bind] at h
      | ok ys =>
        rw [hm] at h
        simp [Bind.bind, Except.bind, pure, Except.pure] at h
        subst h
        simp [ih ys hm]

/-- A successful extraction keeps the length of the parsed array. -/
theorem extract_texts_length (items : List Json) (texts : List Json)
    (h : extract_texts items = .ok texts) : texts.length = items.length := by
  unfold extract_texts at h
  split at h
  · exact mapM_except_length _ items texts h
  · cases h
    simp

/-- Contract validation only returns texts whose length equals the input
length. -/
theorem afterParse_ret (lines : List String) (attempt : Nat) (t : Json)
    (texts : List Json) (h : afterParse lines attempt t = .ret texts) :
    texts.length = lines.length := by
  simp only [afterParse] at h
  split at h
  · split at h
    · split at h
      · cases h
      · split at h
        · next heq =>
          cases h
          simpa using heq
        · split at h <;> cases h
    · split at h <;> cases h
  · split at h <;> cases h

/-- One attempt body only returns texts whose length equals the input
length. -/
theorem resultOfRaw_ret (lines : List String) (attempt : Nat) (raw : String)
    (texts : List Json) (h : resultOfRaw lines attempt raw = .ret texts) :
    texts.length = lines.length := by
  unfold resultOfRaw at h
  split at h
  · exact afterParse_ret _ _ _ _ h
  · split at h
    · split at h
      · exact afterParse_ret _ _ _ _ h
      · cases h
    · split at h <;> cases h

/-- The fallback phase only succeeds with an output of the input length. -/
theorem fallbackPhase_ok_length (oracle : Nat → Option String) (lines : List String)
    (k : Nat) (log : List String) (res : List Json) (lg : List String)
    (h : fallbackPhase oracle lines k log = (.ok res, lg)) : res.length = lines.length := by
  unfold fallbackPhase at h
  split at h
  · simp at h
  · next translated log2 heq =>
    split at h
    · simp at h
    · next hlen =>
      obtain ⟨h1, h2⟩ := Prod.mk.injEq .. ▸ h
      cases h1
      simpa using hlen

/-- The structured attempt loop only succeeds with an output of the input
length. -/
theorem structLoop_ok_length (attempts : List Nat) :
    ∀ (oracle : Nat → Option String) (lines : List String) (k : Nat)
      (log : List String) (res : List Json) (lg : List String),
    structLoop oracle lines k log attempts = (.ok res, lg) → res.length = lines.length := by
  induction attempts with
  | nil =>
    intro oracle lines k log res lg h
    rw [structLoop] at h
    exact fallbackPhase_ok_length oracle lines k log res lg h
  | cons a t ih =>
    intro oracle lines k log res lg h
    rw [structLoop] at h
    split at h
    · simp at h
    · next raw heq =>
      split at h
      · rename_i texts heq2
        obtain ⟨h1, h2⟩ := Prod.mk.injEq .. ▸ h
        cases h1
        exact resultOfRaw_ret lines a raw _ heq2
      · simp at h
      · exact ih oracle lines (k + 1) _ res lg h
      · exact fallbackPhase_ok_length oracle lines (k + 1) _ res lg h

/-- Any successful run of translate_lines returns as many entries as the
input has lines. -/
theorem translate_lines_ok_length (oracle : Nat → Option String) (lines : List String)
    (res : List Json) (log : List String)
    (h : translate_lines oracle lines = (.ok res, log)) : res.length = lines.length := by
  unfold translate_lines at h
  by_cases he : lines.isEmpty
  · rw [if_pos he] at h
    obtain ⟨h1, h2⟩ := Prod.mk.injEq .. ▸ h
    cases h1
    rw [List.isEmpty_eq_true] at he
    simp [he]
  · rw [if_neg he] at h
    exact structLoop_ok_length [0, 1, 2] oracle lines 0 [] res log h

/-- C5: after any successful translation path, structured or fallback, the
result has the length of the flattened input line list, which equals the
sum over the blocks of the batch of their text line counts. -/
theorem c5_length_preservation (oracle : Nat → Option String) (batch : List (List String))
    (res : List Json) (log : List String)
    (h : translate_lines oracle (batchTextLines batch) = (.ok res, log)) :
    res.length = (batchTextLines batch).length ∧
    (batchTextLines batch).length = (batch.map (fun b => (blockTextLines b).length)).sum := by
  refine ⟨translate_lines_ok_length oracle _ res log h, ?_⟩
  simp [batchTextLines]
  rfl

/-- Witness for C5 at a one-block batch translated by a structured success. -/
theorem c5_witness :
    ([Json.str "Привет"] : List Json).length =
      (batchTextLines [["1", "00:00:01,000 --> 00:00:02,000", "Hello"]]).length ∧
    (batchTextLines [["1", "00:00:01,000 --> 00:00:02,000", "Hello"]]).length =
      (([["1", "00:00:01,000 --> 00:00:02,000", "Hello"]].map
        (fun b => (blockTextLines b).length))).sum :=
  c5_length_preservation (fun _ => some "[\x7b\"id\": 0, \"text\": \"Привет\"\x7d]")
    [["1", "00:00:01,000 --> 00:00:02,000", "Hello"]]
    [Json.str "Привет"] [batchPrompt ["Hello"]] rfl

/-- A file that main actually processes: not name-excluded and with no
pre-existing output. -/
def fileProcessed (f : String × Bool × TFOut) : Bool :=
  !(excludedName f.1) && !f.2.1

/-- A processed file whose translation raised. -/
def fileFailed (f : String × Bool × TFOut) : Bool :=
  fileProcessed f &&
    (match f.2.2 with
     | .failure _ _ => true
     | .success => false)

/-- A processed file whose translation succeeded. -/
def fileSucceeded (f : String × Bool × TFOut) : Bool :=
  fileProcessed f &&
    (match f.2.2 with
     | .success => true
     | .failure _ _ => false)

/-- The error line recorded by main for a failing file. -/
def errMsg (f : String × Bool × TFOut) : String :=
  f.1 ++ ": " ++
    (match f.2.2 with
     | .failure _ m => m
     | .success => "")

/-- The file loop accumulates one error per failing processed file and one
written output per succeeding processed file, deleting the partial output
of every failing file, provided no pending output name is already on
disk. -/
theorem processOne_fold (files : List (String × Bool × TFOut)) :
    ∀ (st : Report),
    files.Pairwise (fun a b => outName a.1 ≠ outName b.1) →
    (∀ f ∈ files, fileProcessed f = true → outName f.1 ∉ st.written) →
    (files.foldl processOne st).errors = st.errors ++ (files.filter fileFailed).map errMsg ∧
    (files.foldl processOne st).written =
      st.written ++ (files.filter fileSucceeded).map (fun f => outName f.1) := by
  induction files with
  | nil => intro st _ _; simp
  | cons f t ih =>
    intro st hp hw
    have hptail := (List.pairwise_cons.mp hp).2
    have hphead := (List.pairwise_cons.mp hp).1
    rw [List.foldl_cons]
    by_cases hex : excludedName f.1
    · have hnp : fileProcessed f = false := by simp [fileProcessed, hex]
      have hstep : processOne st f = st := by rw [processOne, if_pos hex]
      rw [hstep]
      have := ih st hptail (fun g hg hgp => hw g (List.mem_cons_of_mem f hg) hgp)
      simpa [List.filter_cons, fileFailed, fileSucceeded, hnp] using this
    · by_cases hsk : f.2.1
      · have hnp : fileProcessed f = false := by simp [fileProcessed, hsk]
        have hstep : processOne st f =
            { st with found := st.found + 1, skipped := st.skipped + 1 } := by
          rw [processOne, if_neg hex, if_pos hsk]
        rw [hstep]
        have := ih { st with found := st.found + 1, skipped := st.skipped + 1 }
          hptail (fun g hg hgp => hw g (List.mem_cons_of_mem f hg) hgp)
        simpa [List.filter_cons, fileFailed, fileSucceeded, hnp] using this
      · have hproc : fileProcessed f = true := by simp [fileProcessed, hex, hsk]
        cases hb : f.2.2 with
        | success =>
          have hstep : processOne st f =
              { st with found := st.found + 1, translated := st.translated + 1,
                        written := st.written ++ [outName f.1] } := by
            rw [processOne, if_neg hex, if_neg hsk, hb]
          rw [hstep]
          have hw2 : ∀ g ∈ t, fileProcessed g = true →
              outName g.1 ∉ st.written ++ [outName f.1] := by
            intro g hg hgp
            simp only [List.mem_append, List.mem_singleton]
            rintro (hin | hin)
            · exact hw g (List.mem_cons_of_mem f hg) hgp hin
            · exact hphead g hg hin.symm
          have := ih
            { st with found := st.found + 1, translated := st.translated + 1,
                      written := st.written ++ [outName f.1] } hptail hw2
          have hff : fileFailed f = false := by simp [fileFailed, hb]
          have hfs : fileSucceeded f = true := by simp [fileSucceeded, hproc, hb]
          simpa [List.filter_cons, hff, hfs] using this
        | failure leftOut msg =>
          have hnotin : outName f.1 ∉ st.written :=
            hw f (List.mem_cons_self f t) hproc
          have hstep : processOne st f =
              { st with found := st.found + 1,
                        errors := st.errors ++ [f.1 ++ ": " ++ msg] } := by
            rw [processOne, if_neg hex, if_neg hsk, hb]
            by_cases hlo : leftOut = true
            · simp only [hlo, if_true]
              rw [if_pos (by simp : outName f.1 ∈ st.written ++ [outName f.1])]
              rw [List.erase_append_right _ hnotin]
              simp
            · have hlo2 : leftOut = false := by revert hlo; cases leftOut <;> simp
              simp [hlo2, hnotin]
          rw [hstep]
          have := ih
            { st with found := st.found + 1,
                      errors := st.errors ++ [f.1 ++ ": " ++ msg] } hptail
            (fun g hg hgp => hw g (List.mem_cons_of_mem f hg) hgp)
          have hff : fileFailed f = true := by simp [fileFailed, hproc, hb]
          have hfs : fileSucceeded f = false := by simp [fileSucceeded, hb]
          have hmsg : errMsg f = f.1 ++ ": " ++ msg := by simp [errMsg, hb]
          simpa [List.filter_cons, hff, hfs, hmsg] using this

/-- C6: each discovered file is handled in isolation by main: every
processed file that fails contributes exactly its error line and leaves no
output file on disk, every successful file contributes exactly its output
file, later files are processed regardless of earlier failures, and the
exit status is zero exactly when no processed file failed. -/
theorem c6_per_file_isolation (files : List (String × Bool × TFOut))
    (hd : files.Pairwise (fun a b => outName a.1 ≠ outName b.1)) :
    ((runMain files).1).errors = (files.filter fileFailed).map errMsg ∧
    ((runMain files).1).written =
      (files.filter fileSucceeded).map (fun f => outName f.1) ∧
    ((runMain files).2 = 0 ↔ files.filter fileFailed = []) := by
  have h := processOne_fold files initReport hd
    (by intro f hf hp; simp [initReport])
  refine ⟨by simpa [runMain, initReport] using h.1,
    by simpa [runMain, initReport] using h.2, ?_⟩
  rw [show (runMain files).2 =
    (if (files.foldl processOne initReport).errors.isEmpty = true then 0 else 1) from rfl]
  have h1 : (files.foldl processOne initReport).errors =
      (files.filter fileFailed).map errMsg := by
    simpa [initReport] using h.1
  rw [h1]
  by_cases hfil : files.filter fileFailed = []
  · simp [hfil]
  · have hne : ((files.filter fileFailed).map errMsg) ≠ [] := by simpa using hfil
    simp [hne, hfil]

/-- Witness for C6 on a concrete run with one success, one failure leaving
a partial output, one excluded name and one skipped file. -/
theorem c6_witness :
    ((runMain [("a.srt", false, .success), ("b.srt", false, .failure true "boom"),
        ("c.ru.srt", false, .success), ("d.srt", true, .success)]).1).errors =
      (([("a.srt", false, .success), ("b.srt", false, .failure true "boom"),
        ("c.ru.srt", false, .success), ("d.srt", true, .success)].filter
          fileFailed)).map errMsg ∧
    ((runMain [("a.srt", false, .success), ("b.srt", false, .failure true "boom"),
        ("c.ru.srt", false, .success), ("d.srt", true, .success)]).1).written =
      (([("a.srt", false, .success), ("b.srt", false, .failure true "boom"),
        ("c.ru.srt", false, .success), ("d.srt", true, .success)].filter
          fileSucceeded)).map (fun f => outName f.1) ∧
    ((runMain [("a.srt", false, .success), ("b.srt", false, .failure true "boom"),
        ("c.ru.srt", false, .success), ("d.srt", true, .success)]).2 = 0 ↔
      [("a.srt", false, .success), ("b.srt", false, .failure true "boom"),
        ("c.ru.srt", false, .success), ("d.srt", true, .success)].filter
          fileFailed = []) :=
  c6_per_file_isolation
    [("a.srt", false, .success), ("b.srt", false, .failure true "boom"),
      ("c.ru.srt", false, .success), ("d.srt", true, .success)] (by decide)
